import Mathlib

/-!
Shallow embedding of the client-side performance telemetry layer of the
repository (performance budgets, the `PerformanceMonitor` service, the
`OptimizedPerformanceMonitor` service, the `MemoryMonitor` service, and the
`measureExecutionTime` instrumentation facade), together with theorems
settling the specification's testable properties against this embedding.

Durations and heap sizes are modelled as rationals (JS numbers used as
finite reals), timestamps as integers (milliseconds since epoch), and the
`Infinity` sentinel used by `checkPerformanceBudget`'s unbounded budget as
`⊤` in `WithTop ℚ` (so `d >= Infinity` is false for every finite `d`,
exactly as in JS).
-/

set_option maxRecDepth 100000

namespace Telemetry

/-- JS metric category union from `optimized-performance-monitor.ts`:
`'render' | 'event' | 'query' | 'error' | 'memory' | 'mutation' |
'validation' | 'navigation'`. -/
inductive MetricType where
  | render | event | query | error | memory | mutation | validation | navigation
deriving DecidableEq, Repr

/-- A JS value stored in a metric's open `metadata` bag. -/
inductive MetaVal where
  | bool (b : Bool)
  | str (s : String)
  | num (q : ℚ)
deriving DecidableEq, Repr

/-- A JS object used as a metadata bag: an ordered list of key/value
bindings; with object spread, later bindings override earlier ones. -/
abbrev Obj := List (String × MetaVal)

/-- Property read `o[k]`: the last binding of key `k` wins (JS object
semantics under spread), `none` models `undefined`. -/
def Obj.getField (o : Obj) (k : String) : Option MetaVal :=
  ((List.reverse o).find? (fun p => p.1 = k)).map (·.2)

/-- `PerformanceMetric` record (shared shape of both monitor modules).
`metadata` defaults to the empty bag when absent. -/
structure Metric where
  id : String
  type : MetricType
  duration : ℚ
  timestamp : ℤ
  metadata : Obj := []
deriving DecidableEq

/-- Budget thresholds; `⊤` models the JS `Infinity` sentinel returned by
`checkPerformanceBudget` when no budget is configured. -/
structure Budget where
  warning : WithTop ℚ
  error : WithTop ℚ
deriving DecidableEq

/-- From `performance-budgets.ts`: the global per-category budget table that
is in scope at `checkPerformanceBudget` (the `MetricBudget` table; its
`aggregationType` fields are not consulted by any code under verification
here and are omitted). Categories absent from the table (`event`, `error`,
`memory`) resolve to `none` (JS `undefined`). -/
def GLOBAL_BUDGETS : MetricType → Option Budget
  | .render => some ⟨16, 33⟩
  | .query => some ⟨200, 500⟩
  | .mutation => some ⟨300, 1000⟩
  | .validation => some ⟨10, 50⟩
  | .navigation => some ⟨300, 1000⟩
  | _ => none

/-- From `performance-budgets.ts`: the `COMPONENT_BUDGETS` table used by
`checkPerformanceBudget` and `PerformanceMonitor.analyzeMetric` (the
`maxMemoryUsage` annotations of the source are not consulted by any code
under verification and are omitted). -/
def COMPONENT_BUDGETS : String → Option Budget
  | "Auth" => some ⟨100, 200⟩
  | "Dashboard" => some ⟨150, 300⟩
  | "VirtualList" => some ⟨16, 32⟩
  | "Form" => some ⟨50, 100⟩
  | "Modal" => some ⟨50, 100⟩
  | "Table" => some ⟨100, 200⟩
  | _ => none

/-- From `performance-budgets.ts`: the `ComponentBudgets` table imported by
`OptimizedPerformanceMonitor`. -/
def ComponentBudgets : String → Option Budget
  | "AuthForm" => some ⟨50, 100⟩
  | "OptimizedFormField" => some ⟨8, 16⟩
  | "SocialAuthButtons" => some ⟨8, 16⟩
  | _ => none

/-- `const budget = component ? COMPONENT_BUDGETS[component] :
GLOBAL_BUDGETS[type]; if (!budget) return {..., budget: {warning: Infinity,
error: Infinity}}` — the budget object `checkPerformanceBudget` resolves
and reports back. -/
def resolveBudget (type : MetricType) (component : Option String) : Budget :=
  match (match component with
         | some c => COMPONENT_BUDGETS c
         | none => GLOBAL_BUDGETS type) with
  | some b => b
  | none => ⟨⊤, ⊤⟩

/-- Result shape of `checkPerformanceBudget`. -/
structure CheckResult where
  isWarning : Bool
  isError : Bool
  budget : Budget
deriving DecidableEq

/-- `checkPerformanceBudget(type, value, component?)` from
`performance-budgets.ts`: resolves the budget (component table when a
component is passed, else the global table, else the unbounded
`{Infinity, Infinity}` budget) and classifies
`isWarning = value >= budget.warning && value < budget.error`,
`isError = value >= budget.error`. -/
def checkPerformanceBudget (type : MetricType) (value : ℚ)
    (component : Option String := none) : CheckResult :=
  let budget := resolveBudget type component
  { isWarning := decide ((↑value ≥ budget.warning) ∧ (↑value < budget.error))
    isError := decide (↑value ≥ budget.error)
    budget := budget }

/-- `calculatePercentile(values, percentile)` from `performance-budgets.ts`:
`ceil((percentile/100) * length) - 1` indexed into the ascending sort
(`[...values].sort((a, b) => a - b)`, modelled by a stable ascending sort)
with no clamping; `none` models the JS `undefined` produced by an
out-of-range index, and the empty list returns `0`. -/
def calculatePercentile (values : List ℚ) (percentile : ℚ) : Option ℚ :=
  if values.length = 0 then some 0
  else
    let sorted := values.insertionSort (fun a b => a ≤ b)
    let index : ℤ := ⌈(percentile / 100) * (values.length : ℚ)⌉ - 1
    if h : 0 ≤ index ∧ index < (sorted.length : ℤ) then
      some (sorted.get ⟨index.toNat, by
        omega⟩)
    else none

/-- Violation severity union `'warning' | 'error'`. -/
inductive Severity where
  | warning | error
deriving DecidableEq, Repr

/-- `PerformanceViolation` record shape (identical in both monitor
modules). A violation's `threshold` carries the crossed budget boundary,
hence the same `WithTop ℚ` carrier as budgets. -/
structure Violation where
  type : MetricType
  component : Option String
  value : ℚ
  threshold : WithTop ℚ
  severity : Severity
  timestamp : ℤ
deriving DecidableEq

/-- `id.split('-')[0]` — the prefix of `id` before the first `'-'` (the
whole `id` when it has none), used by `PerformanceMonitor.analyzeMetric`
as the component name. -/
def componentNameOf (id : String) : String :=
  String.mk (id.toList.takeWhile (fun c => c ≠ '-'))

/-- `PerformanceMonitor.analyzeMetric` from `performance-monitor.ts`,
as the list of violations it reports for one incoming metric (in report
order: the component-budget check first, then the unconditional global
check). The moving average and 95th percentile the source computes at the
top of the method are local values never read afterwards and produce no
observable behaviour, so they are not modelled. -/
def analyzeMetricPM (m : Metric) : List Violation :=
  let componentName := componentNameOf m.id
  let compViolations :=
    if (COMPONENT_BUDGETS componentName).isSome then
      let result := checkPerformanceBudget m.type m.duration (some componentName)
      if result.isError || result.isWarning then
        [{ type := m.type, component := some componentName, value := m.duration,
           threshold := if result.isError then result.budget.error else result.budget.warning,
           severity := if result.isError then .error else .warning,
           timestamp := m.timestamp }]
      else []
    else []
  let globalViolations :=
    let result := checkPerformanceBudget m.type m.duration
    if result.isError || result.isWarning then
      [{ type := m.type, component := none, value := m.duration,
         threshold := if result.isError then result.budget.error else result.budget.warning,
         severity := if result.isError then .error else .warning,
         timestamp := m.timestamp }]
    else []
  compViolations ++ globalViolations

/-- Memory snapshot shape of `performance-monitor.ts`. -/
structure PMSnapshot where
  timestamp : ℤ
  usage : ℚ
  heapSize : ℚ
  heapLimit : ℚ
deriving DecidableEq

/-- The mutable state of the `PerformanceMonitor` singleton: the metric
buffer, the violation buffer, the memory-snapshot buffer and the single
listener registry (a JS `Set`, iterated in insertion order; listeners are
identified abstractly by naturals). -/
structure PMState where
  metrics : List Metric
  violations : List Violation
  memorySnapshots : List PMSnapshot
  listeners : List ℕ
deriving DecidableEq

/-- `ONE_HOUR = 60 * 60 * 1000` milliseconds, the retention window of
`pruneMetrics`. -/
def ONE_HOUR : ℤ := 60 * 60 * 1000

/-- `array.slice(-n)`: the last `n` elements (the whole array when it is
shorter). -/
def takeLast (n : ℕ) (l : List α) : List α := l.drop (l.length - n)

/-- What a listener is invoked with: `PerformanceMonitor` passes both
metrics and violations through the same `MetricListener` interface. -/
inductive Payload where
  | metric (m : Metric)
  | violation (v : Violation)
deriving DecidableEq

/-- `PerformanceMonitor.addMetric` (with `maxMetrics = 1000`), returning
the successor state together with the notification trace — the list of
(listener, payload) invocations it performs, in order. Mirrors the source
statement for statement: push the metric; notify every listener with the
metric; trim to the last `maxMetrics` entries when over; `analyzeMetric`
(each reported violation is pushed onto the violation buffer and notified
to every listener via `reportViolation`/`notifyListeners`); then
`pruneMetrics` (keep metrics with `now - timestamp < ONE_HOUR`, then
`slice(-1000)`; filter violations by the same window). `now` is the value
of `Date.now()` during the call. Listeners are assumed to return normally
here; `addMetricExc` below models a throwing listener. -/
def addMetricRun (now : ℤ) (s : PMState) (m : Metric) :
    PMState × List (ℕ × Payload) :=
  let metrics1 := s.metrics ++ [m]
  let trace1 := s.listeners.map (fun l => (l, Payload.metric m))
  let metrics2 := if metrics1.length > 1000 then takeLast 1000 metrics1 else metrics1
  let vs := analyzeMetricPM m
  let trace2 := vs.flatMap (fun v => s.listeners.map (fun l => (l, Payload.violation v)))
  let violations1 := s.violations ++ vs
  let metrics3 := takeLast 1000 (metrics2.filter (fun x => now - x.timestamp < ONE_HOUR))
  let violations2 := violations1.filter (fun v => now - v.timestamp < ONE_HOUR)
  ({ s with metrics := metrics3, violations := violations2 }, trace1 ++ trace2)

/-- Filter options of `PerformanceMonitor.getMetrics`. -/
structure GetOptions where
  type : Option MetricType := none
  timeRange : Option (ℤ × ℤ) := none
  component : Option String := none

/-- JS `haystack.includes(needle)` on strings. -/
def strIncludes (haystack needle : String) : Bool :=
  (List.range (haystack.toList.length + 1)).any
    (fun i => needle.toList.isPrefixOf (haystack.toList.drop i))

/-- `PerformanceMonitor.getMetrics(options?)`: successive filters by
type, inclusive time range, and `m.id.includes(component)`; with no
options it returns the whole retained buffer in insertion order. -/
def getMetrics (s : PMState) (options : GetOptions := {}) : List Metric :=
  let f1 := match options.type with
    | some t => s.metrics.filter (fun m => m.type = t)
    | none => s.metrics
  let f2 := match options.timeRange with
    | some (start, stop) => f1.filter (fun m => start ≤ m.timestamp ∧ m.timestamp ≤ stop)
    | none => f1
  match options.component with
  | some c => f2.filter (fun m => strIncludes m.id c)
  | none => f2

/-- `PerformanceMonitor.subscribe`: adds the listener to the single
shared registry (a JS `Set`: re-adding an element is a no-op). -/
def subscribePM (s : PMState) (l : ℕ) : PMState :=
  if l ∈ s.listeners then s else { s with listeners := s.listeners ++ [l] }

/-- `PerformanceMonitor.dispose`: clears the interval (no timer in this
state model), empties all three buffers and clears the listener registry.
Nothing latches a "disposed" flag. -/
def dispose (_s : PMState) : PMState :=
  { metrics := [], violations := [], memorySnapshots := [], listeners := [] }

/-- `this.listeners.forEach(listener => listener(metric))` when a
listener may throw (`beh l = true` means listener `l` throws): returns
the listeners actually invoked, in order, and whether an exception
escaped the loop. `Set.forEach` stops propagating the callback's
exception immediately, so everything after the first throwing listener
is skipped. -/
def notifyListenersSeq (beh : ℕ → Bool) : List ℕ → List ℕ × Bool
  | [] => ([], false)
  | l :: rest =>
    if beh l then ([l], true)
    else
      let r := notifyListenersSeq beh rest
      (l :: r.1, r.2)

/-- `PerformanceMonitor.addMetric` in the presence of possibly-throwing
listeners: the metric is pushed, then the listeners run; if one throws,
the exception propagates out of `addMetric` (there is no try/catch in the
source) and the count trim, `analyzeMetric` and `pruneMetrics` never run.
Returns (state, invoked listeners, whether an exception escaped). -/
def addMetricExc (beh : ℕ → Bool) (now : ℤ) (s : PMState) (m : Metric) :
    PMState × List ℕ × Bool :=
  let metrics1 := s.metrics ++ [m]
  let r := notifyListenersSeq beh s.listeners
  if r.2 then ({ s with metrics := metrics1 }, r.1, true)
  else
    let metrics2 := if metrics1.length > 1000 then takeLast 1000 metrics1 else metrics1
    let vs := analyzeMetricPM m
    let violations1 := s.violations ++ vs
    let metrics3 := takeLast 1000 (metrics2.filter (fun x => now - x.timestamp < ONE_HOUR))
    let violations2 := violations1.filter (fun v => now - v.timestamp < ONE_HOUR)
    ({ s with metrics := metrics3, violations := violations2 }, r.1, false)

/-- The caller-facing argument of `OptimizedPerformanceMonitor.addMetric`
(`Omit<PerformanceMetric, 'timestamp'>`) and of the `addMetric` calls made
by `measureExecutionTime`: a metric without a timestamp. -/
structure PartialMetric where
  id : String
  type : MetricType
  duration : ℚ
  metadata : Obj := []
deriving DecidableEq

/-- The mutable state of the `OptimizedPerformanceMonitor` singleton; it
keeps two separate listener registries (metric listeners and violation
listeners). -/
structure OPMState where
  metrics : List Metric
  violations : List Violation
  metricListeners : List ℕ
  violationListeners : List ℕ
deriving DecidableEq

/-- `OptimizedPerformanceMonitor.analyzeMetric` from
`optimized-performance-monitor.ts`, as the (at most one) violation it
reports: bail out when the global table has no budget for the category;
read `metadata.component`; take thresholds from the component budget with
`componentBudget?.warning || budget.warning` (the `||` falls back to the
global threshold when the component threshold is absent or `0`, JS
falsiness); then compare with STRICT `>` — first
`duration > errorThreshold`, else `duration > threshold`. `metadata`
component values that are not strings are outside this model; the empty
string is JS-falsy and disables the component lookup. Violation
timestamps here are `Date.now()` at analysis time. -/
def analyzeMetricOpt (now : ℤ) (m : Metric) : Option Violation :=
  match GLOBAL_BUDGETS m.type with
  | none => none
  | some budget =>
    let component : Option String :=
      match m.metadata.getField "component" with
      | some (.str s) => if s = "" then none else some s
      | _ => none
    let componentBudget : Option Budget :=
      match component with
      | some c => ComponentBudgets c
      | none => none
    let threshold : WithTop ℚ :=
      match componentBudget with
      | some cb => if cb.warning = 0 then budget.warning else cb.warning
      | none => budget.warning
    let errorThreshold : WithTop ℚ :=
      match componentBudget with
      | some cb => if cb.error = 0 then budget.error else cb.error
      | none => budget.error
    if (↑m.duration > errorThreshold) then
      some { type := m.type, component := component, value := m.duration,
             threshold := errorThreshold, severity := .error, timestamp := now }
    else if (↑m.duration > threshold) then
      some { type := m.type, component := component, value := m.duration,
             threshold := threshold, severity := .warning, timestamp := now }
    else none

/-- `OptimizedPerformanceMonitor.addMetric`: builds the full metric with
`timestamp: Date.now()` (the caller cannot supply one), pushes it,
`analyzeMetric` (a reported violation is pushed and notified to the
violation listeners), `pruneMetrics` (count trim only — this module has
no time-window prune), then notifies the metric listeners. Returns the
successor state and the notification trace in order. -/
def addMetricOpt (now : ℤ) (s : OPMState) (pm : PartialMetric) :
    OPMState × List (ℕ × Payload) :=
  let fullMetric : Metric :=
    { id := pm.id, type := pm.type, duration := pm.duration,
      timestamp := now, metadata := pm.metadata }
  let metrics1 := s.metrics ++ [fullMetric]
  let vOpt := analyzeMetricOpt now fullMetric
  let violations1 := s.violations ++ vOpt.toList
  let violTrace := vOpt.toList.flatMap
    (fun v => s.violationListeners.map (fun l => (l, Payload.violation v)))
  let metrics2 := if metrics1.length > 1000 then takeLast 1000 metrics1 else metrics1
  let metricTrace := s.metricListeners.map (fun l => (l, Payload.metric fullMetric))
  ({ s with metrics := metrics2, violations := violations1 }, violTrace ++ metricTrace)

/-- `MemorySnapshot` shape of `memory-monitor.ts`. -/
structure MMSnapshot where
  timestamp : ℤ
  usedJSHeapSize : ℚ
  totalJSHeapSize : ℚ
  jsHeapSizeLimit : ℚ
deriving DecidableEq

instance : Inhabited MMSnapshot := ⟨⟨0, 0, 0, 0⟩⟩

/-- `MemoryLeakReport` shape of `memory-monitor.ts`. Note the field is
`usageIncrease`, holding exactly the quotient the source computes. -/
structure MemoryLeakReport where
  timestamp : ℤ
  usageIncrease : ℚ
  component : Option String
  snapshots : List MMSnapshot
deriving DecidableEq

/-- `LEAK_THRESHOLD = 0.2` of `memory-monitor.ts` (a fraction, not a
percentage). -/
def LEAK_THRESHOLD : ℚ := 0.2

/-- JS `Map.set` preserving first-insertion iteration order. -/
def upsertStat (acc : List (String × ℕ × ℚ)) (c : String) (v : ℕ × ℚ) :
    List (String × ℕ × ℚ) :=
  if acc.any (fun p => p.1 = c) then
    acc.map (fun p => if p.1 = c then (c, v) else p)
  else acc ++ [(c, v)]

/-- The `componentMetrics` map built by
`MemoryMonitor.findSuspiciousComponent`: per component (a truthy
`metadata.component` string), its occurrence count and summed
`metadata.memoryUsage || 0`. -/
def componentStats (metrics : List Metric) : List (String × ℕ × ℚ) :=
  metrics.foldl (fun acc metric =>
    match metric.metadata.getField "component" with
    | some (.str c) =>
      if c = "" then acc
      else
        let current := ((acc.find? (fun p => p.1 = c)).map (·.2)).getD (0, 0)
        let memoryUsage : ℚ :=
          match metric.metadata.getField "memoryUsage" with
          | some (.num q) => q
          | _ => 0
        upsertStat acc c (current.1 + 1, current.2 + memoryUsage)
    | _ => acc) []

/-- `MemoryMonitor.findSuspiciousComponent`: score each component by
`(totalMemory * count) / metrics.length` and keep the first strict
maximum above the running `maxScore` initialised to `0`. -/
def findSuspiciousComponent (metrics : List Metric) : Option String :=
  ((componentStats metrics).foldl
    (fun (best : ℚ × Option String) p =>
      let score := ((p.2.2 * (p.2.1 : ℚ)) / (metrics.length : ℚ))
      if score > best.1 then (score, some p.1) else best)
    (0, none)).2

/-- The body of `MemoryMonitor.detectLeaks` (the source wraps it in a 1s
debounce; the debounce only coalesces timer-driven invocations and is not
modelled): with fewer than 2 snapshots do nothing; otherwise compare the
oldest of the last 10 retained snapshots with the most recent one,
compute `usageIncrease = (latest.used - oldest.used) / oldest.used` (a
fraction — the source does NOT multiply by 100), and when it exceeds
`LEAK_THRESHOLD` build a report over the metrics the Metric Store returns
for that time window and hand it (once) to every leak listener; `none`
means no report is emitted. -/
def detectLeaks (now : ℤ) (snapshots : List MMSnapshot) (pm : PMState) :
    Option MemoryLeakReport :=
  if snapshots.length < 2 then none
  else
    let recentSnapshots := takeLast 10 snapshots
    let oldestRecent := recentSnapshots.headD default
    let latest := recentSnapshots.getLastD default
    let usageIncrease :=
      (latest.usedJSHeapSize - oldestRecent.usedJSHeapSize) / oldestRecent.usedJSHeapSize
    if usageIncrease > LEAK_THRESHOLD then
      let recentMetrics := getMetrics pm
        { timeRange := some (oldestRecent.timestamp, latest.timestamp) }
      some { timestamp := now, usageIncrease := usageIncrease,
             component := findSuspiciousComponent recentMetrics,
             snapshots := recentSnapshots }
    else none

/-- A JS throwable as `measureExecutionTime` sees it: an `Error` with a
message, or any other thrown value. -/
inductive JsError where
  | error (message : String)
  | other
deriving DecidableEq

/-- `error instanceof Error ? error.message : 'Unknown error'`. -/
def jsErrorMessage : JsError → String
  | .error m => m
  | .other => "Unknown error"

/-- `measureExecutionTime(fn, id, type, metadata?)` from the performance
utilities: the wrapped operation's outcome is the `Except` argument and
its elapsed wall-clock time the `duration` argument (both are environment
inputs of the facade). On success it records one metric
`{id, type, duration, metadata: {success: true, ...metadata}}` and
returns the result unchanged; on failure it records one metric
`{id, type: 'error', duration, metadata: {success: false, error: message,
...metadata}}` and re-throws the original failure. Note the caller's
`metadata` is spread AFTER the `success`/`error` fields, so its bindings
win on key collision. Returns (outcome as seen by the caller, metrics
recorded via `addMetric`). -/
def measureExecutionTime (outcome : Except JsError α) (id : String)
    (type : MetricType) (metadata : Obj) (duration : ℚ) :
    Except JsError α × List PartialMetric :=
  match outcome with
  | .ok v =>
    (.ok v,
     [{ id := id, type := type, duration := duration,
        metadata := ("success", MetaVal.bool true) :: metadata }])
  | .error e =>
    (.error e,
     [{ id := id, type := .error, duration := duration,
        metadata := ("success", MetaVal.bool false)
          :: ("error", MetaVal.str (jsErrorMessage e)) :: metadata }])

/-- The spec's severity rule, written from its words ("`d >= error` →
`error`; else `d >= warning` → `warning`; else no violation"), used to
state what `analyzeMetricPM` actually resolves each check against. -/
def budgetClassify (b : Budget) (comp : Option String) (m : Metric) : List Violation :=
  if (↑m.duration ≥ b.error) then
    [{ type := m.type, component := comp, value := m.duration,
       threshold := b.error, severity := .error, timestamp := m.timestamp }]
  else if (↑m.duration ≥ b.warning) then
    [{ type := m.type, component := comp, value := m.duration,
       threshold := b.warning, severity := .warning, timestamp := m.timestamp }]
  else []

theorem takeLast_length_le (n : ℕ) (l : List α) : (takeLast n l).length ≤ n := by
  simp only [takeLast, List.length_drop]
  omega

theorem mem_of_mem_takeLast {x : α} {n : ℕ} {l : List α}
    (h : x ∈ takeLast n l) : x ∈ l :=
  List.drop_subset _ _ h

theorem getMetrics_no_filter (s : PMState) : getMetrics s = s.metrics := rfl

/-- C1. Bounded retention: `addMetric` ends with `pruneMetrics`, so after
any call (hence after each call of any sequence of calls), a `getMetrics()`
query with no filter — which returns the retained buffer as-is — yields at
most `maxMetrics = 1000` metrics, and none of them is older than the
`ONE_HOUR` retention window relative to `now`, the clock reading of that
call (which is also the query's clock reading when it is made at that
point, as `getMetrics` itself never touches the clock). -/
theorem addMetric_bounded_retention (now : ℤ) (s : PMState) (m : Metric) :
    (getMetrics (addMetricRun now s m).1).length ≤ 1000 ∧
    ∀ x ∈ getMetrics (addMetricRun now s m).1, now - x.timestamp < ONE_HOUR := by
  constructor
  · exact takeLast_length_le _ _
  · intro x hx
    have hx' := mem_of_mem_takeLast hx
    simpa using (List.mem_filter.mp hx').2

/-- Witness for C1 at a concrete call on the empty store. -/
theorem addMetric_bounded_retention_witness :
    (getMetrics (addMetricRun 0 ⟨[], [], [], []⟩ ⟨"w", .event, 1, 0, []⟩).1).length ≤ 1000 ∧
    (0 : ℤ) - (0 : ℤ) < ONE_HOUR :=
  ⟨(addMetric_bounded_retention 0 ⟨[], [], [], []⟩ ⟨"w", .event, 1, 0, []⟩).1,
   (addMetric_bounded_retention 0 ⟨[], [], [], []⟩ ⟨"w", .event, 1, 0, []⟩).2
     ⟨"w", .event, 1, 0, []⟩ (by decide)⟩

/-- C2 counterexample. A metric whose component (`"Auth"`, from
`id.split('-')[0]`) has a configured budget, while the global table also
has a budget for its category (`render`): `analyzeMetric` reports TWO
violations — one against the component thresholds (200) and a second one
against the global thresholds (33) — not "exactly one violation against
the component thresholds" as claimed. -/
theorem analyzeMetric_reports_component_and_global :
    analyzeMetricPM { id := "Auth-render", type := .render, duration := 250, timestamp := 0 } =
      [{ type := .render, component := some "Auth", value := 250, threshold := 200,
         severity := .error, timestamp := 0 },
       { type := .render, component := none, value := 250, threshold := 33,
         severity := .error, timestamp := 0 }] ∧
    (analyzeMetricPM
      { id := "Auth-render", type := .render, duration := 250, timestamp := 0 }).length ≠ 1 := by
  decide

/-- C2 (amended). Budget resolution in `PerformanceMonitor.addMetric`:
the component check classifies solely against the per-component budget
(when one exists for `id.split('-')[0]`), and — independently and
additionally — the global check classifies solely against the global
per-category budget; when a table has no entry the corresponding check
produces nothing (`checkPerformanceBudget` resolves
`warning = error = Infinity`, which no finite duration reaches). So a
component-budgeted metric is classified against the component thresholds,
but a second, global violation is also reported whenever the global
thresholds are crossed. -/
theorem analyzeMetric_budget_resolution (m : Metric) :
    analyzeMetricPM m =
      (match COMPONENT_BUDGETS (componentNameOf m.id) with
       | some cb => budgetClassify cb (some (componentNameOf m.id)) m
       | none => []) ++
      (match GLOBAL_BUDGETS m.type with
       | some gb => budgetClassify gb none m
       | none => []) := by
  have hcls : ∀ (b : Budget) (comp : Option String),
      (if (decide ((↑m.duration : WithTop ℚ) ≥ b.error) ||
           decide ((↑m.duration : WithTop ℚ) ≥ b.warning ∧ (↑m.duration : WithTop ℚ) < b.error)) = true then
         [({ type := m.type, component := comp, value := m.duration,
             threshold := if decide ((↑m.duration : WithTop ℚ) ≥ b.error) = true then b.error else b.warning,
             severity := if decide ((↑m.duration : WithTop ℚ) ≥ b.error) = true then Severity.error else Severity.warning,
             timestamp := m.timestamp } : Violation)]
       else []) = budgetClassify b comp m := by
    intro b comp
    by_cases he : (b.error ≤ (↑m.duration : WithTop ℚ))
    · simp [budgetClassify, he, ge_iff_le]
    · by_cases hw : (b.warning ≤ (↑m.duration : WithTop ℚ))
      · have hlt : (↑m.duration : WithTop ℚ) < b.error := not_le.mp he
        simp [budgetClassify, he, hw, hlt, ge_iff_le]
      · simp [budgetClassify, he, hw, ge_iff_le]
  cases hcb : COMPONENT_BUDGETS (componentNameOf m.id) with
  | none =>
    cases hgb : GLOBAL_BUDGETS m.type with
    | none =>
      simp [analyzeMetricPM, checkPerformanceBudget, resolveBudget, hcb, hgb]
    | some gb =>
      simpa [analyzeMetricPM, checkPerformanceBudget, resolveBudget, hcb, hgb]
        using hcls gb none
  | some cb =>
    cases hgb : GLOBAL_BUDGETS m.type with
    | none =>
      simpa [analyzeMetricPM, checkPerformanceBudget, resolveBudget, hcb, hgb]
        using hcls cb (some (componentNameOf m.id))
    | some gb =>
      have h1 := hcls cb (some (componentNameOf m.id))
      have h2 := hcls gb none
      simp [analyzeMetricPM, checkPerformanceBudget, resolveBudget, hcb, hgb] at h1 h2 ⊢
      rw [h1, h2]

/-- C3 counterexample. `OptimizedPerformanceMonitor.analyzeMetric`
compares with strict `>`: a `render` metric with `duration == 33` (the
global `error` threshold) produces a `warning` violation (against the
warning threshold 16), not an `error` one, and a metric with
`duration == 16` (the `warning` threshold) produces no violation at all —
the boundaries there are exclusive, contradicting the claim. -/
theorem optimized_boundary_exclusive :
    analyzeMetricOpt 0 { id := "x", type := .render, duration := 33, timestamp := 0 } =
      some { type := .render, component := none, value := 33, threshold := 16,
             severity := .warning, timestamp := 0 } ∧
    analyzeMetricOpt 0 { id := "x", type := .render, duration := 16, timestamp := 0 } = none ∧
    Severity.warning ≠ Severity.error := by
  decide

/-- C3 (amended). `checkPerformanceBudget` — the classifier used by
`PerformanceMonitor` — does have inclusive boundaries: for a resolved
finite budget `{warning := w, error := e}`, `isError ↔ d ≥ e` and
`isWarning ↔ w ≤ d < e`; in particular `d == e` classifies as an error
and `d == w` (when `w < e`) as a warning. (The strict-`>`
`OptimizedPerformanceMonitor.analyzeMetric`, by contrast, is exclusive —
see the counterexample.) -/
theorem checkPerformanceBudget_inclusive_boundaries (t : MetricType) (c : Option String)
    (w e : ℚ) (h : resolveBudget t c = ⟨(w : WithTop ℚ), (e : WithTop ℚ)⟩) :
    (∀ d : ℚ, ((checkPerformanceBudget t d c).isError = true ↔ e ≤ d) ∧
       ((checkPerformanceBudget t d c).isWarning = true ↔ w ≤ d ∧ d < e)) ∧
    (checkPerformanceBudget t e c).isError = true ∧
    (w < e → (checkPerformanceBudget t w c).isWarning = true ∧
             (checkPerformanceBudget t w c).isError = false) := by
  have hsim : ∀ d : ℚ, ((checkPerformanceBudget t d c).isError = true ↔ e ≤ d) ∧
      ((checkPerformanceBudget t d c).isWarning = true ↔ w ≤ d ∧ d < e) := by
    intro d
    constructor
    · simp [checkPerformanceBudget, h, ge_iff_le, WithTop.coe_le_coe]
    · simp [checkPerformanceBudget, h, ge_iff_le, WithTop.coe_le_coe, WithTop.coe_lt_coe]
  refine ⟨hsim, (hsim e).1.mpr le_rfl, fun hwe => ⟨(hsim w).2.mpr ⟨le_rfl, hwe⟩, ?_⟩⟩
  have := (hsim w).1
  rcases hb : (checkPerformanceBudget t w c).isError with _ | _
  · rfl
  · exact absurd (this.mp hb) (not_le.mpr hwe)

/-- C3 witness: the global `render` budget `{16, 33}` — duration 33 is an
error, duration 16 a warning (inclusive boundaries of
`checkPerformanceBudget`). -/
theorem checkPerformanceBudget_inclusive_boundaries_witness :
    (checkPerformanceBudget .render 33 none).isError = true ∧
    (checkPerformanceBudget .render 16 none).isWarning = true :=
  ⟨(checkPerformanceBudget_inclusive_boundaries .render none 16 33 (by decide)).2.1,
   ((checkPerformanceBudget_inclusive_boundaries .render none 16 33 (by decide)).2.2
     (by decide)).1⟩

theorem getField_cons_ne (k k' : String) (v : MetaVal) (o : Obj) (hne : k' ≠ k) :
    Obj.getField ((k, v) :: o) k' = o.getField k' := by
  simp only [Obj.getField, List.reverse_cons, List.find?_append]
  cases hf : o.reverse.find? (fun p => decide (p.1 = k')) with
  | none => simp [List.find?, hne, Ne.symm hne]
  | some x => simp

theorem getField_cons_self (k : String) (v : MetaVal) (o : Obj)
    (h : o.getField k = none) : Obj.getField ((k, v) :: o) k = some v := by
  have hf : o.reverse.find? (fun p => decide (p.1 = k)) = none := by
    simpa [Obj.getField] using h
  simp [Obj.getField, List.reverse_cons, List.find?_append, hf, List.find?]

/-- C4 counterexample. `measureExecutionTime` spreads the caller's
`metadata` AFTER its own `success`/`error` fields, so a caller metadata
bag carrying those keys overrides them: the recorded error metric's
`metadata.success` is `"nope"` (not `false`) and its `metadata.error` is
`"spoof"` (not the failure's message `"x"`), contradicting the claim that
the recorded metric always carries `success === false` and the error
message. (The failure itself is still re-raised unchanged.) -/
theorem measureExecutionTime_metadata_override :
    ((measureExecutionTime (Except.error (JsError.error "x") : Except JsError Unit) "id" .event
        [("error", .str "spoof"), ("success", .str "nope")] 5).1 =
      Except.error (JsError.error "x")) ∧
    ((measureExecutionTime (Except.error (JsError.error "x") : Except JsError Unit) "id" .event
        [("error", .str "spoof"), ("success", .str "nope")] 5).2.map
        (fun rm => (rm.type, rm.metadata.getField "success", rm.metadata.getField "error")) =
      [(MetricType.error, some (.str "nope"), some (.str "spoof"))]) ∧
    some (MetaVal.str "nope") ≠ some (MetaVal.bool false) :=
  ⟨rfl, by decide, by decide⟩

/-- C4 (amended). Facade transparency of `measureExecutionTime`, for
caller metadata that does not itself bind the `success` or `error` keys
(otherwise the caller's bindings win, since the source spreads `metadata`
last): the outcome — result or failure — is passed through unchanged, and
exactly one metric is recorded: on success with the given id and category
and `metadata.success === true`; on failure with category `error`,
`metadata.success === false` and the failure's message under
`metadata.error`. -/
theorem measureExecutionTime_facade_transparency {α : Type} (outcome : Except JsError α)
    (id : String) (type : MetricType) (md : Obj) (dur : ℚ)
    (h1 : md.getField "success" = none) (h2 : md.getField "error" = none) :
    (measureExecutionTime outcome id type md dur).1 = outcome ∧
    (measureExecutionTime outcome id type md dur).2.length = 1 ∧
    ∀ rm ∈ (measureExecutionTime outcome id type md dur).2,
      rm.id = id ∧ rm.duration = dur ∧
      (∀ v, outcome = .ok v → rm.type = type ∧
        rm.metadata.getField "success" = some (.bool true)) ∧
      (∀ e, outcome = .error e → rm.type = .error ∧
        rm.metadata.getField "success" = some (.bool false) ∧
        rm.metadata.getField "error" = some (.str (jsErrorMessage e))) := by
  cases outcome with
  | ok v =>
    refine ⟨rfl, rfl, ?_⟩
    intro rm hrm
    simp only [measureExecutionTime, List.mem_singleton] at hrm
    subst hrm
    refine ⟨rfl, rfl, fun w hw => ⟨rfl, getField_cons_self _ _ _ h1⟩, fun e he => by simp at he⟩
  | error e =>
    refine ⟨rfl, rfl, ?_⟩
    intro rm hrm
    simp only [measureExecutionTime, List.mem_singleton] at hrm
    subst hrm
    refine ⟨rfl, rfl, fun w hw => by simp at hw, fun e' he' => ?_⟩
    have he'' : e = e' := by simpa using he'
    subst he''
    have herr : Obj.getField (("error", MetaVal.str (jsErrorMessage e)) :: md) "error" =
        some (.str (jsErrorMessage e)) := getField_cons_self _ _ _ h2
    have hsucc : Obj.getField (("error", MetaVal.str (jsErrorMessage e)) :: md) "success" =
        none := by
      rw [getField_cons_ne _ _ _ _ (by decide)]
      exact h1
    exact ⟨rfl, getField_cons_self _ _ _ hsucc, by
      rw [getField_cons_ne _ _ _ _ (by decide)]
      exact herr⟩

/-- C4 witness: a successful operation with empty caller metadata. -/
theorem measureExecutionTime_facade_transparency_witness :
    (measureExecutionTime (Except.ok () : Except JsError Unit) "id" .event [] 5).1 =
      Except.ok () ∧
    (measureExecutionTime (Except.ok () : Except JsError Unit) "id" .event [] 5).2.length = 1 ∧
    ∀ rm ∈ (measureExecutionTime (Except.ok () : Except JsError Unit) "id" .event [] 5).2,
      rm.id = "id" ∧ rm.duration = 5 ∧
      (∀ v, (Except.ok () : Except JsError Unit) = .ok v → rm.type = .event ∧
        rm.metadata.getField "success" = some (.bool true)) ∧
      (∀ e, (Except.ok () : Except JsError Unit) = .error e → rm.type = .error ∧
        rm.metadata.getField "success" = some (.bool false) ∧
        rm.metadata.getField "error" = some (.str (jsErrorMessage e))) :=
  measureExecutionTime_facade_transparency (Except.ok ()) "id" .event [] 5 rfl rfl

theorem notifyListenersSeq_no_throw (beh : ℕ → Bool) (ls : List ℕ)
    (h : ls.all (fun l => !(beh l)) = true) : notifyListenersSeq beh ls = (ls, false) := by
  induction ls with
  | nil => rfl
  | cons a as ih =>
    simp only [List.all_cons, Bool.and_eq_true, Bool.not_eq_true'] at h
    simp [notifyListenersSeq, h.1, ih (by simpa using h.2)]

theorem notifyListenersSeq_throw (beh : ℕ → Bool) (ls : List ℕ)
    (h : ls.any beh = true) : (notifyListenersSeq beh ls).2 = true := by
  induction ls with
  | nil => simp at h
  | cons a as ih =>
    by_cases hb : beh a = true
    · simp [notifyListenersSeq, hb]
    · simp only [List.any_cons, Bool.or_eq_true] at h
      rcases h with h | h
      · exact absurd h hb
      · simp [notifyListenersSeq, hb, ih h]

/-- C5 counterexample. With two registered listeners of which the first
one throws: `addMetric` lets the exception escape to its caller, the
second listener is never notified, and pruning does not complete — a
metric a full hour stale is still in the buffer afterwards (the incoming
metric was already appended before notification). This contradicts every
part of the claim. -/
theorem addMetric_listener_throw_propagates :
    ((addMetricExc (fun l => l == 0) 7200000
        ⟨[⟨"old", .event, 1, 0, []⟩], [], [], [0, 1]⟩ ⟨"new", .event, 1, 7200000, []⟩).2.2
      = true) ∧
    ((1 : ℕ) ∉ (addMetricExc (fun l => l == 0) 7200000
        ⟨[⟨"old", .event, 1, 0, []⟩], [], [], [0, 1]⟩ ⟨"new", .event, 1, 7200000, []⟩).2.1) ∧
    ((⟨"old", .event, 1, 0, []⟩ : Metric) ∈ (addMetricExc (fun l => l == 0) 7200000
        ⟨[⟨"old", .event, 1, 0, []⟩], [], [], [0, 1]⟩ ⟨"new", .event, 1, 7200000, []⟩).1.metrics) ∧
    ¬ ((7200000 : ℤ) - 0 < ONE_HOUR) := by
  decide

/-- C5 (amended). `addMetric` has no try/catch around listener
notification: when no registered listener throws, the call completes
exactly as the exception-free model (`addMetricRun`) does, every listener
having been invoked; but when some listener throws, the exception
propagates out of `addMetric`, and the count trim, budget analysis and
`pruneMetrics` are all skipped — the buffer is left as the raw
un-maintained append and the violation buffer untouched. -/
theorem addMetric_listener_exception_behaviour (beh : ℕ → Bool) (now : ℤ)
    (s : PMState) (m : Metric) :
    (s.listeners.all (fun l => !(beh l)) = true →
       addMetricExc beh now s m = ((addMetricRun now s m).1, s.listeners, false)) ∧
    (s.listeners.any beh = true →
       (addMetricExc beh now s m).2.2 = true ∧
       (addMetricExc beh now s m).1.metrics = s.metrics ++ [m] ∧
       (addMetricExc beh now s m).1.violations = s.violations) := by
  constructor
  · intro h
    have hn := notifyListenersSeq_no_throw beh s.listeners h
    simp [addMetricExc, addMetricRun, hn]
  · intro h
    have ht := notifyListenersSeq_throw beh s.listeners h
    simp [addMetricExc, ht]

/-- C5 witness: a store with one well-behaved listener completes
normally, and one with a throwing listener does not. -/
theorem addMetric_listener_exception_behaviour_witness :
    (addMetricExc (fun _ => false) 0 ⟨[], [], [], [3]⟩ ⟨"w", .event, 1, 0, []⟩ =
      ((addMetricRun 0 ⟨[], [], [], [3]⟩ ⟨"w", .event, 1, 0, []⟩).1, [3], false)) ∧
    (addMetricExc (fun _ => true) 0 ⟨[], [], [], [3]⟩ ⟨"w", .event, 1, 0, []⟩).2.2 = true :=
  ⟨(addMetric_listener_exception_behaviour (fun _ => false) 0 ⟨[], [], [], [3]⟩
      ⟨"w", .event, 1, 0, []⟩).1 (by decide),
   ((addMetric_listener_exception_behaviour (fun _ => true) 0 ⟨[], [], [], [3]⟩
      ⟨"w", .event, 1, 0, []⟩).2 (by decide)).1⟩

/-- C6 counterexample. `calculatePercentile` does NOT clamp the index:
at `p = 0` the index is `ceil(0) - 1 = -1`, the array access is out of
range (JS `undefined`, modelled `none`), and in particular the result is
not an element of the list — contradicting the claim's "clamped to the
valid index range (so the result is always an element of the list,
including at p = 0)". -/
theorem calculatePercentile_zero_unclamped :
    calculatePercentile [42] 0 = none ∧
    ∀ x ∈ ([42] : List ℚ), calculatePercentile [42] 0 ≠ some x := by
  have h : (⌈((0 : ℚ) / 100) * (([42] : List ℚ).length : ℚ)⌉ : ℤ) = 0 := by
    rw [Int.ceil_eq_iff]
    norm_num
  have hnone : calculatePercentile [42] 0 = none := by
    simp only [calculatePercentile, h]
    norm_num
  refine ⟨hnone, fun x _ => ?_⟩
  rw [hnone]
  simp

/-- Sanity instance of the claim's concrete example
`percentile([1..10], 50) == 5`. -/
theorem calculatePercentile_ten_fifty :
    calculatePercentile [1, 2, 3, 4, 5, 6, 7, 8, 9, 10] 50 = some 5 := by
  have h : (⌈((50 : ℚ) / 100) * (([1, 2, 3, 4, 5, 6, 7, 8, 9, 10] : List ℚ).length : ℚ)⌉ : ℤ) = 5 := by
    rw [Int.ceil_eq_iff]
    norm_num
  simp only [calculatePercentile, h]
  norm_num
  rfl

/-- Sanity instance of the claim's concrete example
`percentile([1..10], 95) == 10`. -/
theorem calculatePercentile_ten_ninetyfive :
    calculatePercentile [1, 2, 3, 4, 5, 6, 7, 8, 9, 10] 95 = some 10 := by
  have h : (⌈((95 : ℚ) / 100) * (([1, 2, 3, 4, 5, 6, 7, 8, 9, 10] : List ℚ).length : ℚ)⌉ : ℤ) = 10 := by
    rw [Int.ceil_eq_iff]
    norm_num
  simp only [calculatePercentile, h]
  norm_num
  rfl

/-- C6 (amended). `calculatePercentile` returns `0` for the empty list;
and for every non-empty list and percentile `p` with `0 < p ≤ 100` the
index `ceil(p/100 * length) - 1` lies in range — no clamping is needed
there — and the result is the sorted list's element at that index, hence
an element of the input list. (No claim is made at `p = 0`, where the
unclamped index `-1` makes the source yield `undefined`; see the
counterexample.) -/
theorem calculatePercentile_spec (values : List ℚ) (p : ℚ)
    (h0 : values ≠ []) (h1 : 0 < p) (h2 : p ≤ 100) :
    calculatePercentile [] p = some 0 ∧
    ∃ x, calculatePercentile values p = some x ∧ x ∈ values := by
  refine ⟨rfl, ?_⟩
  have hlen : ¬ (values.length = 0) := fun h => h0 (List.length_eq_zero.mp h)
  have hnpos : 0 < (values.length : ℚ) := by
    have : 0 < values.length := Nat.pos_of_ne_zero hlen
    exact_mod_cast this
  have hxpos : 0 < (p / 100) * (values.length : ℚ) := by positivity
  have hceil1 : 1 ≤ ⌈(p / 100) * (values.length : ℚ)⌉ := Int.ceil_pos.mpr hxpos
  have hle : (p / 100) * (values.length : ℚ) ≤ (values.length : ℚ) := by
    have hq : p / 100 ≤ 1 := by
      rw [div_le_one (by norm_num : (0 : ℚ) < 100)]
      exact h2
    calc (p / 100) * (values.length : ℚ) ≤ 1 * (values.length : ℚ) :=
          mul_le_mul_of_nonneg_right hq (le_of_lt hnpos)
      _ = (values.length : ℚ) := one_mul _
  have hceil2 : ⌈(p / 100) * (values.length : ℚ)⌉ ≤ (values.length : ℤ) :=
    Int.ceil_le.mpr (by exact_mod_cast hle)
  have hlensort : (values.insertionSort (fun a b => a ≤ b)).length = values.length :=
    List.length_insertionSort _ _
  have hcond : 0 ≤ ⌈(p / 100) * (values.length : ℚ)⌉ - 1 ∧
      ⌈(p / 100) * (values.length : ℚ)⌉ - 1 <
        ((values.insertionSort (fun a b => a ≤ b)).length : ℤ) := by
    rw [hlensort]
    omega
  simp only [calculatePercentile, hlen, if_false, dif_pos hcond]
  refine ⟨_, rfl, ?_⟩
  exact ((List.perm_insertionSort (fun a b => a ≤ b) values).mem_iff).mp
    (List.get_mem _ _ _)

/-- C6 witness at the claim's example `percentile([42], 95) == 42`. -/
theorem calculatePercentile_spec_witness :
    calculatePercentile [] 95 = some 0 ∧
    ∃ x, calculatePercentile [42] 95 = some x ∧ x ∈ ([42] : List ℚ) :=
  calculatePercentile_spec [42] 95 (by decide) (by decide) (by decide)

theorem leak_scenario_above : (1000000 : ℚ) <
    5 * ((1300000 : ℚ) - (1000000 : ℚ)) := by norm_num

theorem leak_base_pos : (0 : ℚ) < (1000000 : ℚ) := by norm_num

/-- C7 counterexample. For a baseline snapshot with `used = 1,000,000`
and a latest with `used = 1,300,000`, `detectLeaks` does emit a report —
but its `usageIncrease` field is the FRACTION `3/10`, not the percentage
`30` the claim asserts (the source never multiplies by 100; its threshold
is correspondingly the fraction `0.2`). -/
theorem detectLeaks_reports_fraction :
    detectLeaks 0 [⟨0, 1000000, 2000000, 4000000⟩, ⟨10000, 1300000, 2000000, 4000000⟩]
        ⟨[], [], [], []⟩ =
      some ⟨0, 3 / 10, none,
        [⟨0, 1000000, 2000000, 4000000⟩, ⟨10000, 1300000, 2000000, 4000000⟩]⟩ ∧
    (3 / 10 : ℚ) ≠ 30 := by
  constructor
  · have hcond : ((1300000 : ℚ) - 1000000) / 1000000 > LEAK_THRESHOLD := by
      norm_num [LEAK_THRESHOLD]
    have hval : ((1300000 : ℚ) - 1000000) / 1000000 = 3 / 10 := by norm_num
    show (if ((1300000 : ℚ) - 1000000) / 1000000 > LEAK_THRESHOLD then
        some (⟨0, ((1300000 : ℚ) - 1000000) / 1000000, none,
          [⟨0, 1000000, 2000000, 4000000⟩, ⟨10000, 1300000, 2000000, 4000000⟩]⟩ :
            MemoryLeakReport)
      else none) = _
    rw [if_pos hcond, hval]
  · norm_num

/-- C7 (amended). Leak-detection threshold of `MemoryMonitor.detectLeaks`
over a two-snapshot window (baseline `b`, latest `l`, positive baseline
usage): a report is emitted precisely when the usage increase exceeds 20%
(`5·(l.used − b.used) > b.used`), and the emitted report's
`usageIncrease` field equals the FRACTION
`(l.used − b.used) / b.used` — the percentage divided by 100 (0.3, not
≈30, in the claim's 1.0M → 1.3M scenario); at a 10% increase no report is
emitted. -/
theorem detectLeaks_threshold (now : ℤ) (b l : MMSnapshot) (pm : PMState)
    (hb : 0 < b.usedJSHeapSize) :
    (b.usedJSHeapSize < 5 * (l.usedJSHeapSize - b.usedJSHeapSize) →
       ∃ r, detectLeaks now [b, l] pm = some r ∧
         r.usageIncrease = (l.usedJSHeapSize - b.usedJSHeapSize) / b.usedJSHeapSize) ∧
    (5 * (l.usedJSHeapSize - b.usedJSHeapSize) ≤ b.usedJSHeapSize →
       detectLeaks now [b, l] pm = none) := by
  have key : (LEAK_THRESHOLD <
      (l.usedJSHeapSize - b.usedJSHeapSize) / b.usedJSHeapSize) ↔
      b.usedJSHeapSize < 5 * (l.usedJSHeapSize - b.usedJSHeapSize) := by
    rw [show LEAK_THRESHOLD = 1 / 5 by norm_num [LEAK_THRESHOLD], lt_div_iff₀ hb]
    constructor
    · intro h
      linarith
    · intro h
      linarith
  have hunf : detectLeaks now [b, l] pm =
      (if (l.usedJSHeapSize - b.usedJSHeapSize) / b.usedJSHeapSize > LEAK_THRESHOLD then
        some { timestamp := now,
               usageIncrease := (l.usedJSHeapSize - b.usedJSHeapSize) / b.usedJSHeapSize,
               component := findSuspiciousComponent
                 (getMetrics pm { timeRange := some (b.timestamp, l.timestamp) }),
               snapshots := [b, l] }
      else none) := rfl
  constructor
  · intro h
    rw [hunf, if_pos (key.mpr h)]
    exact ⟨_, rfl, rfl⟩
  · intro h
    rw [hunf, if_neg (fun hc => absurd (key.mp hc) (not_lt.mpr h))]

/-- C7 witness at the claim's emitting scenario (1.0M → 1.3M: a report
with `usageIncrease = 300000/1000000`). -/
theorem detectLeaks_threshold_witness :
    ∃ r, detectLeaks 0 [⟨0, 1000000, 2000000, 4000000⟩, ⟨10000, 1300000, 2000000, 4000000⟩]
        ⟨[], [], [], []⟩ = some r ∧
      r.usageIncrease = ((1300000 : ℚ) - 1000000) / 1000000 :=
  (detectLeaks_threshold 0 ⟨0, 1000000, 2000000, 4000000⟩ ⟨10000, 1300000, 2000000, 4000000⟩
    ⟨[], [], [], []⟩ leak_base_pos).1 leak_scenario_above

/-- C8. `dispose` clears the buffers and the listener registry but
latches no "disposed" state, so the very sequence the repository's own
test (`performance-monitor.test.ts`, "should clean up resources on
dispose") runs — `dispose(); addMetric(metric); getMetrics()` — returns
the appended metric (length 1), not the empty array the claim (and the
test's `expect(...).toHaveLength(0)`) requires. The pre-dispose listener
(id 7) is indeed never invoked (the notification trace of the
post-dispose call is empty) and `addMetric` does not throw — only the
"buffers stay empty" part fails. -/
theorem addMetric_after_dispose_not_noop :
    getMetrics (addMetricRun 0 (dispose ⟨[⟨"pre", .render, 5, 0, []⟩], [], [], [7]⟩)
        ⟨"test", .render, 100, 0, []⟩).1 =
      [⟨"test", .render, 100, 0, []⟩] ∧
    (addMetricRun 0 (dispose ⟨[⟨"pre", .render, 5, 0, []⟩], [], [], [7]⟩)
        ⟨"test", .render, 100, 0, []⟩).2 = [] ∧
    ([⟨"test", .render, 100, 0, []⟩] : List Metric) ≠ [] := by
  decide

/-- C9 counterexample. `PerformanceMonitor.addMetric` stores the metric
exactly as the caller built it: calling it at `Date.now() = 999` with a
caller-supplied `timestamp = 123` leaves 123 in the store — the timestamp
is NOT assigned at ingestion time by this class (its `PerformanceMetric`
argument includes the timestamp field). -/
theorem addMetricPM_keeps_caller_timestamp :
    (addMetricRun 999 ⟨[], [], [], []⟩ ⟨"m", .event, 1, 123, []⟩).1.metrics.map
        (fun x => x.timestamp) = [123] ∧
    (123 : ℤ) ≠ 999 := by
  decide

theorem mem_ite_takeLast {x : α} {c : Prop} [Decidable c] {n : ℕ} {l : List α}
    (h : x ∈ (if c then takeLast n l else l)) : x ∈ l := by
  split at h
  · exact mem_of_mem_takeLast h
  · exact h

/-- C9 (amended). `OptimizedPerformanceMonitor.addMetric` does assign the
timestamp at ingestion: its argument type omits the timestamp and the
stored metric gets `timestamp = Date.now()`, so every metric in the store
after a call is either a previously stored one or carries the call's
clock reading. (`PerformanceMonitor.addMetric`, by contrast, stores the
caller-supplied timestamp unchanged — see the counterexample.) -/
theorem addMetricOpt_assigns_timestamp (now : ℤ) (s : OPMState) (pm : PartialMetric) :
    ∀ x ∈ (addMetricOpt now s pm).1.metrics, x ∈ s.metrics ∨ x.timestamp = now := by
  intro x hx
  have hx' : x ∈ (if (s.metrics ++
      [({ id := pm.id, type := pm.type, duration := pm.duration,
          timestamp := now, metadata := pm.metadata } : Metric)]).length > 1000 then
        takeLast 1000 (s.metrics ++
          [({ id := pm.id, type := pm.type, duration := pm.duration,
              timestamp := now, metadata := pm.metadata } : Metric)])
      else s.metrics ++
        [({ id := pm.id, type := pm.type, duration := pm.duration,
            timestamp := now, metadata := pm.metadata } : Metric)]) := hx
  rcases List.mem_append.mp (mem_ite_takeLast hx') with h | h
  · exact Or.inl h
  · right
    rw [List.mem_singleton.mp h]

/-- C9 witness: a concrete optimized-store call at `Date.now() = 777`. -/
theorem addMetricOpt_assigns_timestamp_witness :
    (⟨"w", .event, 1, 777, []⟩ : Metric) ∈ ([] : List Metric) ∨
    (⟨"w", .event, 1, 777, []⟩ : Metric).timestamp = 777 :=
  addMetricOpt_assigns_timestamp 777 ⟨[], [], [], []⟩ ⟨"w", .event, 1, []⟩
    ⟨"w", .event, 1, 777, []⟩ (by decide)

/-- C10. The `PerformanceMonitor` class keeps one shared listener
registry: on every `addMetric` call, a listener id receives the metric
payload iff it is registered, receives each violation reported during
the call iff it is registered (so a subscriber of `subscribe()` cannot
opt out of violation payloads), and nothing outside the registry ever
receives a payload — there is no separate violation-only channel on this
class. -/
theorem addMetric_single_listener_channel (now : ℤ) (s : PMState) (m : Metric) (l : ℕ) :
    ((l, Payload.metric m) ∈ (addMetricRun now s m).2 ↔ l ∈ s.listeners) ∧
    (∀ v : Violation, ((l, Payload.violation v) ∈ (addMetricRun now s m).2 ↔
        (l ∈ s.listeners ∧ v ∈ analyzeMetricPM m))) ∧
    (∀ p : Payload, (l, p) ∈ (addMetricRun now s m).2 → l ∈ s.listeners) := by
  have htr : (addMetricRun now s m).2 =
      s.listeners.map (fun a => (a, Payload.metric m)) ++
      (analyzeMetricPM m).flatMap
        (fun v => s.listeners.map (fun a => (a, Payload.violation v))) := rfl
  refine ⟨?_, fun v => ?_, fun p hp => ?_⟩
  · rw [htr]
    simp [List.mem_append, List.mem_map, List.mem_flatMap, Prod.ext_iff]
  · rw [htr]
    simp only [List.mem_append, List.mem_map, List.mem_flatMap, Prod.ext_iff]
    constructor
    · rintro (⟨a, ha, rfl, hpay⟩ | ⟨v', hv', a, ha, rfl, hpay⟩)
      · exact absurd hpay (by simp)
      · obtain rfl : v' = v := by simpa using hpay
        exact ⟨ha, hv'⟩
    · rintro ⟨hl, hv⟩
      exact Or.inr ⟨v, hv, l, hl, rfl, rfl⟩
  · rw [htr] at hp
    rcases List.mem_append.mp hp with h | h
    · obtain ⟨a, ha, hpa⟩ := List.mem_map.mp h
      obtain rfl : a = l := congrArg Prod.fst hpa
      exact ha
    · obtain ⟨v, _, h2⟩ := List.mem_flatMap.mp h
      obtain ⟨a, ha, hpa⟩ := List.mem_map.mp h2
      obtain rfl : a = l := congrArg Prod.fst hpa
      exact ha

/-- C10 witness: the single registered listener (id 5) receives the
metric payload of a concrete call. -/
theorem addMetric_single_listener_channel_witness :
    (5, Payload.metric ⟨"x", .render, 100, 0, []⟩) ∈
      (addMetricRun 0 ⟨[], [], [], [5]⟩ ⟨"x", .render, 100, 0, []⟩).2 ∧
    (5, Payload.violation ⟨.render, none, 100, 33, .error, 0⟩) ∈
      (addMetricRun 0 ⟨[], [], [], [5]⟩ ⟨"x", .render, 100, 0, []⟩).2 :=
  ⟨(addMetric_single_listener_channel 0 ⟨[], [], [], [5]⟩ ⟨"x", .render, 100, 0, []⟩ 5).1.mpr
      (by decide),
   ((addMetric_single_listener_channel 0 ⟨[], [], [], [5]⟩ ⟨"x", .render, 100, 0, []⟩ 5).2.1
      ⟨.render, none, 100, 33, .error, 0⟩).mpr (by decide)⟩

end Telemetry
